import Mathlib

/-!
Verification development for the RETINA auxiliary scripts
(`classify_images.py` and `test_prediction_consistency.py`).

The two scripts are orchestration glue around an external Django
prediction service (`prediction.services.dr_service`) and the
filesystem.  We embed them shallowly:

* raw image bytes are `Bytes` (a list of byte values);
* the external service is a `Service`: its `class_labels` list and its
  `process_image` operation; a result of `none` models an exception
  raised while opening or predicting, `some r` models a returned
  result record with `success`, `prediction`, `confidence`, `error`;
* the `colored_images` source tree is a `SourceDir`: the files that
  `os.walk` reaches, in walk order, each with its directory
  components, base name and contents (the scripts never write to it);
* the `classified_images` output tree is an `OutputDir`: the component
  paths of its subdirectories (the root is the empty path and always
  exists) and its files, each keyed by (directory path, base name);
* class labels are joined as `OUTPUT_DIR / label / name` with pathlib
  semantics: a label is split on the separator, empty and single-dot
  components are dropped, and `..` steps up.  The modelled region is
  the output tree together with its parent (the script directory): a
  path that resolves inside the tree or exactly to the script
  directory is handled faithfully; a path that navigates anywhere else
  (an absolute label, or a label reaching a sibling of the output
  directory such as `../colored_images`) is treated as unresolvable.
  A copy whose destination is the script directory succeeds but is not
  part of the output tree and is not recorded in it;
* confidences use `Rat`; the scripts only divide them by 100.

Stateful loops become folds; an uncaught Python exception
(`mkdir` or `shutil.copy2` on a path whose parent does not exist, or
the `KeyError` from `results[predicted_class] += 1`, which fires after
the copy already happened) stops the run with the state it had at that
moment.  Logging is not modelled.
-/

namespace Retina

/-- Raw image bytes, modelled as a list of byte values. -/
abbrev Bytes := List Nat

/-- The record returned by `dr_service.process_image`: `success`,
`prediction`, `confidence` (on the 0–100 scale) and `error`. -/
structure PredResult where
  success : Bool
  prediction : String
  confidence : Rat
  error : String
deriving Repr, DecidableEq

/-- The external prediction capability `prediction.services.dr_service`:
its `class_labels` collection and the `process_image` operation.
`process_image = none` models an exception raised during the call. -/
structure Service where
  class_labels : List String
  process_image : Bytes → Option PredResult

/-- One file reached by `os.walk` under the source directory: directory
components below the root, base name, and contents. -/
structure FileEntry where
  dir : List String
  name : String
  content : Bytes
deriving Repr, DecidableEq

/-- The `colored_images` source directory: the files `os.walk` reaches,
in walk order. -/
structure SourceDir where
  files : List FileEntry
deriving Repr, DecidableEq

/-- The `classified_images` output directory: the component paths of
its existing subdirectories (the root itself is the empty path and is
not listed) and the copied files, each keyed by
(directory path under the root, base name). -/
structure OutputDir where
  dirs : List (List String)
  files : List (List String × String × Bytes)
deriving Repr, DecidableEq

/-! ### Path pieces: Python `str.split('/')` and pathlib joining -/

/-- Python `str.split('/')` over the character list, with an
accumulator for the current piece. -/
def splitSlashAux : List Char → List Char → List String
  | [], acc => [String.mk acc.reverse]
  | c :: rest, acc =>
      if c = '/' then String.mk acc.reverse :: splitSlashAux rest []
      else splitSlashAux rest (c :: acc)

/-- The path components pathlib keeps when a label is joined onto a
path: split on the separator, drop empty pieces and single dots, keep
everything else (including `..`). -/
def pyParts (s : String) : List String :=
  (splitSlashAux s.data []).filter (fun c => decide ¬(c = "" ∨ c = "."))

/-- Does the label start with the separator?  Joining an absolute path
replaces the base path entirely; such labels leave the modelled
region. -/
def isAbsolute (s : String) : Bool :=
  match s.data with
  | c :: _ => decide (c = '/')
  | [] => false

/-- A label that is a plain directory name: non-empty, not `.` or
`..`, and free of the path separator.  Exactly these labels denote one
subdirectory of the output root. -/
def simpleLabel (l : String) : Bool :=
  decide (¬(l = "" ∨ l = "." ∨ l = "..")) && decide (¬('/' ∈ l.data))

/-! ### Image discovery -/

/-- Index of the last dot in a list of characters (Python `str.rfind`),
`none` when there is no dot. -/
def rfindDot (cs : List Char) : Option Nat :=
  (List.range cs.length).foldl (fun acc i => if cs.getD i ' ' = '.' then some i else acc) none

/-- `pathlib.PurePath.suffix` of a bare file name: the part from the
last dot on, and empty unless that dot is neither the first nor the
last character. -/
def pySuffix (nm : String) : String :=
  let cs := nm.data
  match rfindDot cs with
  | some i => if 0 < i ∧ i < cs.length - 1 then String.mk (List.drop i cs) else ""
  | none => ""

/-- Python `str.lower`, character by character (the extensions involved
are ASCII, where `Char.toLower` and `str.lower` agree). -/
def strLower (s : String) : String :=
  String.mk (s.data.map Char.toLower)

/-- The extension allow-list of `find_image_files`. -/
def image_extensions : List String :=
  [".jpg", ".jpeg", ".png", ".bmp", ".tiff", ".tif"]

/-- `find_image_files`: walk the source directory and keep every file
whose lower-cased suffix is in the allow-list. -/
def find_image_files (src : SourceDir) : List FileEntry :=
  src.files.filter (fun f => image_extensions.contains (strLower (pySuffix f.name)))

/-! ### The output tree and path resolution -/

/-- Insertion-ordered key set of a list of labels; the key set of the
dict comprehension building `results`. -/
def dedupKeys (ls : List String) : List String :=
  ls.foldl (fun acc c => if c ∈ acc then acc else acc ++ [c]) []

/-- Where a relative path ends up when the OS resolves it against the
output tree: an existing directory under the root, the script
directory (the root's parent), a missing entry (the OS raises), or
somewhere outside the modelled region. -/
inductive Resolved where
  | inTree : List String → Resolved
  | scriptDir : Resolved
  | missing : Resolved
  | outside : Resolved
deriving Repr, DecidableEq

/-- One resolution step.  Inside the tree, `..` steps to the parent
(the root's parent is the script directory) and a plain component must
name an existing subdirectory.  From the script directory only
`classified_images` (the output root's own name) leads back into the
tree; anything else leaves the modelled region. -/
def resolveComp (ds : List (List String)) : Resolved → String → Resolved
  | Resolved.inTree p, c =>
      if c = ".." then
        match p with
        | [] => Resolved.scriptDir
        | _ :: _ => Resolved.inTree p.dropLast
      else if p ++ [c] ∈ ds then Resolved.inTree (p ++ [c])
      else Resolved.missing
  | Resolved.scriptDir, c =>
      if c = "classified_images" then Resolved.inTree []
      else Resolved.outside
  | Resolved.missing, _ => Resolved.missing
  | Resolved.outside, _ => Resolved.outside

/-- Resolve a component list relative to the output root. -/
def resolveDir (ds : List (List String)) (comps : List String) : Resolved :=
  comps.foldl (resolveComp ds) (Resolved.inTree [])

/-- `(OUTPUT_DIR / label).mkdir(exist_ok=True)`: a no-op when the path
already resolves to an existing directory; creates the final component
when its parent resolves inside the tree (in the `missing` case the
final component is a plain name, since `..` steps never produce
`missing`); raises (`none`) when an intermediate component is missing,
and for paths outside the modelled region. -/
def mkdirLabel (ds : List (List String)) (label : String) : Option (List (List String)) :=
  if isAbsolute label = true then none
  else
    match resolveDir ds (pyParts label) with
    | Resolved.inTree _ => some ds
    | Resolved.scriptDir => some ds
    | Resolved.outside => none
    | Resolved.missing =>
        match resolveDir ds (pyParts label).dropLast, (pyParts label).getLast? with
        | Resolved.inTree p, some c => some (ds ++ [p ++ [c]])
        | _, _ => none

/-- One step of the `for class_name in class_labels: mkdir` loop of
`setup_output_directory`; a raise aborts the loop. -/
def mkdirFold (acc : List (List String) × Bool) (label : String) : List (List String) × Bool :=
  if acc.2 = true then acc
  else
    match mkdirLabel acc.1 label with
    | some ds => (ds, false)
    | none => (acc.1, true)

/-- The subdirectories `setup_output_directory` creates, and whether a
`mkdir` raised partway. -/
def setupDirs (labels : List String) : List (List String) × Bool :=
  labels.foldl mkdirFold ([], false)

/-- `setup_output_directory`: remove any previous output tree
(`shutil.rmtree`), recreate the output directory empty, then create one
subdirectory per class label.  The result does not depend on the
previous output state.  The boolean is true when a `mkdir` raised; the
directory list is then the part created before the raise. -/
def setup_output_directory (labels : List String) : OutputDir × Bool :=
  ((⟨(setupDirs labels).1, []⟩ : OutputDir), (setupDirs labels).2)

/-- `shutil.copy2` of contents `b` into the existing directory at path
`p` under the output root, under base name `nm`: any previous file with
the same directory and base name is overwritten.  Metadata travels with
the contents in this model. -/
def copyInto (o : OutputDir) (p : List String) (nm : String) (b : Bytes) : OutputDir :=
  { o with files := o.files.filter (fun e => decide ¬(e.1 = p ∧ e.2.1 = nm)) ++ [(p, nm, b)] }

/-- The directory `shutil.copy2` writes into for `OUTPUT_DIR / label /
name`: `some (some p)` for an existing directory at `p` under the
root, `some none` for the script directory (the copy succeeds but
leaves the output tree), `none` when the parent is missing (copy2
raises) or the path leaves the modelled region. -/
def copyDest (ds : List (List String)) (label : String) : Option (Option (List String)) :=
  if isAbsolute label = true then none
  else
    match resolveDir ds (pyParts label) with
    | Resolved.inTree p => some (some p)
    | Resolved.scriptDir => some none
    | Resolved.missing => none
    | Resolved.outside => none

/-- Perform the copy at a resolved destination: a script-directory copy
succeeds without entering the output tree. -/
def copyLoc (o : OutputDir) (loc : Option (List String)) (nm : String) (b : Bytes) : OutputDir :=
  match loc with
  | some p => copyInto o p nm b
  | none => o

/-! ### The batch classifier -/

/-- `predict_image_using_django_service`: open the file, call the
service on its raw bytes; on a `success` result return the label and
the confidence divided by 100; on a failure result or a raised
exception log and return `none` (Python `(None, None)`). -/
def predict_image_using_django_service (svc : Service) (content : Bytes) :
    Option (String × Rat) :=
  match svc.process_image content with
  | none => none
  | some r => if r.success then some (r.prediction, r.confidence / 100) else none

/-- The `results` dict of `classify_images`, one zero tally per class
label, in key insertion order. -/
def initResults (labels : List String) : List (String × Nat) :=
  (dedupKeys labels).map (fun c => (c, 0))

/-- `results[predicted_class] += 1`: increment the entry keyed by the
predicted class, leaving every other entry alone. -/
def bumpTally : List (String × Nat) → String → List (String × Nat)
  | [], _ => []
  | (a, k) :: tl, c => (if a = c then (a, k + 1) else (a, k)) :: bumpTally tl c

/-- Sum of all tallies. -/
def tallySum : List (String × Nat) → Nat
  | [] => 0
  | (_, k) :: tl => k + tallySum tl

/-- The keys of the tally list. -/
def tallyKeys : List (String × Nat) → List String
  | [] => []
  | (a, _) :: tl => a :: tallyKeys tl

/-- The tally recorded for one class. -/
def getTally : List (String × Nat) → String → Nat
  | [], _ => 0
  | (a, k) :: tl, c => (if a = c then k else 0) + getTally tl c

/-- The mutable state of the classify loop: output tree, tallies,
processed count. -/
structure LoopState where
  out : OutputDir
  results : List (String × Nat)
  processed : Nat
deriving Repr, DecidableEq

/-- One iteration of the classify loop.  A truthy prediction (Python
`if predicted_class:`, so a non-empty string) is copied to
`OUTPUT_DIR / predicted_class / name` and tallied.  The boolean is true
when the iteration raised: either `shutil.copy2` could not resolve the
destination (nothing written), or — after a copy whose destination
resolved, for instance a label like `Mild/..` — the
`results[predicted_class] += 1` lookup raised `KeyError`, leaving the
copied file behind. -/
def classifyStep (svc : Service) (st : LoopState) (f : FileEntry) : LoopState × Bool :=
  match predict_image_using_django_service svc f.content with
  | some (pred, _conf) =>
      if pred ≠ "" then
        match copyDest st.out.dirs pred with
        | none => (st, true)
        | some loc =>
            if pred ∈ tallyKeys st.results then
              ({ out := copyLoc st.out loc f.name f.content,
                 results := bumpTally st.results pred,
                 processed := st.processed + 1 }, false)
            else
              ({ out := copyLoc st.out loc f.name f.content,
                 results := st.results, processed := st.processed }, true)
      else (st, false)
  | none => (st, false)

/-- The classify loop over the discovered files.  The boolean is true
when an uncaught exception stopped the loop; the state is then the one
the crashing iteration left behind. -/
def runLoop (svc : Service) : LoopState → List FileEntry → LoopState × Bool
  | st, [] => (st, false)
  | st, f :: fs =>
      match classifyStep svc st f with
      | (st1, true) => (st1, true)
      | (st1, false) => runLoop svc st1 fs

/-- How a run of `classify_images` ended. -/
inductive Outcome where
  | earlyNoSource : Outcome
  | earlyNoImages : Outcome
  | crashed : Outcome
  | completed : Outcome
deriving Repr, DecidableEq

/-- The observable result of a run of `classify_images`: the output
tree afterwards (`none` when it does not exist), the tallies, the
processed count, and how the run ended. -/
structure RunState where
  out : Option OutputDir
  results : List (String × Nat)
  processed : Nat
  outcome : Outcome
deriving Repr, DecidableEq

/-- `classify_images`: check the source directory, discover image
files, rebuild the output directory (a raise during setup crashes the
run with the partially built tree), then classify each file in turn.
`source = none` models a missing source directory; `out0` is the output
tree left by any previous run. -/
def classify_images (svc : Service) (source : Option SourceDir) (out0 : Option OutputDir) :
    RunState :=
  match source with
  | none => ⟨out0, [], 0, Outcome.earlyNoSource⟩
  | some src =>
      if find_image_files src = [] then ⟨out0, [], 0, Outcome.earlyNoImages⟩
      else if (setup_output_directory svc.class_labels).2 = true then
        ⟨some (setup_output_directory svc.class_labels).1, [], 0, Outcome.crashed⟩
      else
        let st0 : LoopState :=
          ⟨(setup_output_directory svc.class_labels).1, initResults svc.class_labels, 0⟩
        let res := runLoop svc st0 (find_image_files src)
        ⟨some res.1.out, res.1.results, res.1.processed,
          if res.2 = true then Outcome.crashed else Outcome.completed⟩

/-- Did the service return a result with `success = true` for this
file? -/
def isSuccess (svc : Service) (f : FileEntry) : Bool :=
  match svc.process_image f.content with
  | some r => r.success
  | none => false

/-- Success together with a non-empty predicted label: exactly the
files the classify loop treats as classified. -/
def isSuccessNonempty (svc : Service) (f : FileEntry) : Bool :=
  match svc.process_image f.content with
  | some r => r.success && decide (r.prediction ≠ "")
  | none => false

/-- Number of discovered files for which the service returned
`success = true`. -/
def successCount (svc : Service) (fs : List FileEntry) : Nat :=
  (fs.filter (isSuccess svc)).length

/-- Number of discovered files with a successful, non-empty
prediction. -/
def classifiedCount (svc : Service) (fs : List FileEntry) : Nat :=
  (fs.filter (isSuccessNonempty svc)).length

/-- The (directory path, base name) key of a copied file. -/
def fkey (e : List String × String × Bytes) : List String × String :=
  (e.1, e.2.1)

/-! ### The consistency checker -/

/-- A filesystem view for the consistency checker: path to contents,
`none` when the path does not exist. -/
abbrev FileSystem := String → Option Bytes

/-- What the consistency checker prints for one test case. -/
inductive CaseOutcome where
  | notFound : CaseOutcome
  | preprocessFailed : CaseOutcome
  | predictionFailed : CaseOutcome
  | matched : String → Rat → CaseOutcome
  | mismatch : String → Rat → CaseOutcome
deriving Repr, DecidableEq

/-- One test case of `test_prediction_consistency`.  The local
preprocessing (`preprocess_image`: PIL open, resize, `img_to_array`,
expand dims, normalize) is external numeric code, abstracted as the
parameter `pre`; its `none` models the caught per-case exception.  The
prediction itself calls the service on the raw file bytes; `none` there
models the caught exception of the outer `try`. -/
def checkCase (svc : Service) (pre : Bytes → Option (List Rat)) (fsys : FileSystem)
    (tc : String × String) : CaseOutcome :=
  match fsys tc.1 with
  | none => CaseOutcome.notFound
  | some b =>
      match pre b with
      | none => CaseOutcome.preprocessFailed
      | some _img_array =>
          match svc.process_image b with
          | none => CaseOutcome.predictionFailed
          | some r =>
              if r.success then
                if r.prediction = tc.2 then CaseOutcome.matched r.prediction (r.confidence / 100)
                else CaseOutcome.mismatch r.prediction (r.confidence / 100)
              else CaseOutcome.predictionFailed

/-- `test_prediction_consistency`: run every test case in order; each
case's `continue` moves on to the next one. -/
def test_prediction_consistency (svc : Service) (pre : Bytes → Option (List Rat))
    (fsys : FileSystem) : List (String × String) → List CaseOutcome
  | [] => []
  | tc :: rest => checkCase svc pre fsys tc :: test_prediction_consistency svc pre fsys rest

/-! ### Helper lemmas about the building blocks -/

theorem dedupAux_nodup (ls : List String) :
    ∀ acc : List String, acc.Nodup →
      (ls.foldl (fun acc c => if c ∈ acc then acc else acc ++ [c]) acc).Nodup := by
  induction ls with
  | nil => intro acc h; simpa using h
  | cons x tl ih =>
      intro acc h
      simp only [List.foldl_cons]
      by_cases hx : x ∈ acc
      · rw [if_pos hx]; exact ih acc h
      · rw [if_neg hx]
        refine ih _ ?_
        simp [List.nodup_append, h, hx]

theorem mem_dedupAux (ls : List String) (x : String) :
    ∀ acc : List String,
      (x ∈ ls.foldl (fun acc c => if c ∈ acc then acc else acc ++ [c]) acc ↔
        x ∈ acc ∨ x ∈ ls) := by
  induction ls with
  | nil => intro acc; simp
  | cons y tl ih =>
      intro acc
      simp only [List.foldl_cons]
      by_cases hy : y ∈ acc
      · rw [if_pos hy, ih]
        constructor
        · rintro (ha | ht)
          · exact Or.inl ha
          · exact Or.inr (List.mem_cons_of_mem _ ht)
        · rintro (ha | hxy)
          · exact Or.inl ha
          · rcases List.mem_cons.mp hxy with hxy | ht
            · exact Or.inl (hxy ▸ hy)
            · exact Or.inr ht
      · rw [if_neg hy, ih]
        simp [List.mem_append, List.mem_cons, or_assoc]

theorem dedupKeys_nodup (ls : List String) : (dedupKeys ls).Nodup :=
  dedupAux_nodup ls [] List.nodup_nil

theorem mem_dedupKeys (ls : List String) (x : String) : x ∈ dedupKeys ls ↔ x ∈ ls := by
  simpa using mem_dedupAux ls x []

theorem tallyKeys_initResults (labels : List String) :
    tallyKeys (initResults labels) = dedupKeys labels := by
  simp only [initResults]
  induction dedupKeys labels with
  | nil => rfl
  | cons c tl ih => simp only [List.map_cons, tallyKeys, ih]

theorem tallySum_initResults (labels : List String) : tallySum (initResults labels) = 0 := by
  simp only [initResults]
  induction dedupKeys labels with
  | nil => rfl
  | cons c tl ih => simpa only [List.map_cons, tallySum, Nat.zero_add] using ih

theorem tallyKeys_bumpTally (rs : List (String × Nat)) (c : String) :
    tallyKeys (bumpTally rs c) = tallyKeys rs := by
  induction rs with
  | nil => rfl
  | cons p tl ih =>
      obtain ⟨a, k⟩ := p
      by_cases h : a = c
      · rw [show bumpTally ((a, k) :: tl) c = (a, k + 1) :: bumpTally tl c by
            simp [bumpTally, h]]
        simp only [tallyKeys, ih]
      · rw [show bumpTally ((a, k) :: tl) c = (a, k) :: bumpTally tl c by
            simp [bumpTally, h]]
        simp only [tallyKeys, ih]

theorem bumpTally_of_not_mem (rs : List (String × Nat)) (c : String)
    (h : c ∉ tallyKeys rs) : bumpTally rs c = rs := by
  induction rs with
  | nil => rfl
  | cons p tl ih =>
      obtain ⟨a, k⟩ := p
      simp only [tallyKeys, List.mem_cons, not_or] at h
      have ha : ¬a = c := fun he => h.1 he.symm
      simp only [bumpTally, if_neg ha, ih h.2]

theorem tallySum_bumpTally (rs : List (String × Nat)) (c : String)
    (hnd : (tallyKeys rs).Nodup) (hc : c ∈ tallyKeys rs) :
    tallySum (bumpTally rs c) = tallySum rs + 1 := by
  induction rs with
  | nil => simp [tallyKeys] at hc
  | cons p tl ih =>
      obtain ⟨a, k⟩ := p
      simp only [tallyKeys, List.nodup_cons] at hnd
      simp only [tallyKeys, List.mem_cons] at hc
      by_cases h : a = c
      · rw [show bumpTally ((a, k) :: tl) c = (a, k + 1) :: bumpTally tl c by
            simp [bumpTally, h],
          bumpTally_of_not_mem tl c (h ▸ hnd.1)]
        simp only [tallySum]
        omega
      · have hc2 : c ∈ tallyKeys tl := by
          rcases hc with he | h2
          · exact absurd he.symm h
          · exact h2
        rw [show bumpTally ((a, k) :: tl) c = (a, k) :: bumpTally tl c by
            simp [bumpTally, h]]
        simp only [tallySum, ih hnd.2 hc2]
        omega

theorem getTally_bumpTally_self (rs : List (String × Nat)) (c : String)
    (hnd : (tallyKeys rs).Nodup) (hc : c ∈ tallyKeys rs) :
    getTally (bumpTally rs c) c = getTally rs c + 1 := by
  induction rs with
  | nil => simp [tallyKeys] at hc
  | cons p tl ih =>
      obtain ⟨a, k⟩ := p
      simp only [tallyKeys, List.nodup_cons] at hnd
      simp only [tallyKeys, List.mem_cons] at hc
      by_cases h : a = c
      · rw [show bumpTally ((a, k) :: tl) c = (a, k + 1) :: bumpTally tl c by
            simp [bumpTally, h],
          bumpTally_of_not_mem tl c (h ▸ hnd.1)]
        simp only [getTally, if_pos h]
        omega
      · have hc2 : c ∈ tallyKeys tl := by
          rcases hc with he | h2
          · exact absurd he.symm h
          · exact h2
        rw [show bumpTally ((a, k) :: tl) c = (a, k) :: bumpTally tl c by
            simp [bumpTally, h]]
        simp only [getTally, if_neg h, ih hnd.2 hc2]
        omega

theorem getTally_bumpTally_ne (rs : List (String × Nat)) (c d : String) (h : d ≠ c) :
    getTally (bumpTally rs c) d = getTally rs d := by
  induction rs with
  | nil => rfl
  | cons p tl ih =>
      obtain ⟨a, k⟩ := p
      by_cases hp : a = c
      · have had : ¬a = d := fun he => h (he ▸ hp)
        rw [show bumpTally ((a, k) :: tl) c = (a, k + 1) :: bumpTally tl c by
            simp [bumpTally, hp]]
        simp only [getTally, if_neg had, ih]
      · rw [show bumpTally ((a, k) :: tl) c = (a, k) :: bumpTally tl c by
            simp [bumpTally, hp]]
        simp only [getTally, ih]

theorem copyInto_dirs (o : OutputDir) (p : List String) (nm : String) (b : Bytes) :
    (copyInto o p nm b).dirs = o.dirs := rfl

theorem mem_copyInto_files (o : OutputDir) (p : List String) (nm : String) (b : Bytes)
    (e : List String × String × Bytes) :
    e ∈ (copyInto o p nm b).files ↔
      (e ∈ o.files ∧ ¬(e.1 = p ∧ e.2.1 = nm)) ∨ e = (p, nm, b) := by
  simp only [copyInto, List.mem_append, List.mem_filter, List.mem_singleton,
    decide_eq_true_eq]

theorem fkeys_copyInto_nodup (o : OutputDir) (p : List String) (nm : String) (b : Bytes)
    (h : (o.files.map fkey).Nodup) : ((copyInto o p nm b).files.map fkey).Nodup := by
  simp only [copyInto, List.map_append, List.map_cons, List.map_nil]
  rw [List.nodup_append]
  refine ⟨((List.filter_sublist o.files).map fkey).nodup h, List.nodup_singleton _, ?_⟩
  intro x hx
  rcases List.mem_map.mp hx with ⟨e, he, rfl⟩
  rcases List.mem_filter.mp he with ⟨-, hq⟩
  rw [decide_eq_true_eq] at hq
  simp only [List.mem_singleton]
  intro hcontra
  simp only [fkey, Prod.mk.injEq] at hcontra
  exact hq hcontra

theorem copyLoc_dirs (o : OutputDir) (loc : Option (List String)) (nm : String) (b : Bytes) :
    (copyLoc o loc nm b).dirs = o.dirs := by
  cases loc <;> rfl

theorem fkeys_copyLoc_nodup (o : OutputDir) (loc : Option (List String)) (nm : String)
    (b : Bytes) (h : (o.files.map fkey).Nodup) :
    ((copyLoc o loc nm b).files.map fkey).Nodup := by
  cases loc with
  | none => exact h
  | some p => exact fkeys_copyInto_nodup o p nm b h

theorem mem_copyLoc_files (o : OutputDir) (loc : Option (List String)) (nm : String)
    (b : Bytes) (e : List String × String × Bytes) (he : e ∈ (copyLoc o loc nm b).files) :
    e ∈ o.files ∨ ∃ p, loc = some p ∧ e = (p, nm, b) := by
  cases loc with
  | none => exact Or.inl he
  | some p =>
      rcases (mem_copyInto_files o p nm b e).mp he with ⟨hm, -⟩ | rfl
      · exact Or.inl hm
      · exact Or.inr ⟨p, rfl, rfl⟩

/-! ### Plain directory names and their path semantics -/

theorem simpleLabel_facts (l : String) (h : simpleLabel l = true) :
    ¬l = "" ∧ ¬l = "." ∧ ¬l = ".." ∧ ¬('/' ∈ l.data) := by
  unfold simpleLabel at h
  rw [Bool.and_eq_true, decide_eq_true_eq, decide_eq_true_eq] at h
  obtain ⟨h1, h2⟩ := h
  rw [not_or, not_or] at h1
  exact ⟨h1.1, h1.2.1, h1.2.2, h2⟩

theorem splitSlashAux_no_slash (cs : List Char) (h : '/' ∉ cs) :
    ∀ acc, splitSlashAux cs acc = [String.mk (acc.reverse ++ cs)] := by
  induction cs with
  | nil => intro acc; simp [splitSlashAux]
  | cons c rest ih =>
      intro acc
      rw [List.mem_cons, not_or] at h
      simp only [splitSlashAux]
      rw [if_neg (fun he => h.1 he.symm), ih h.2 (c :: acc)]
      simp [List.reverse_cons, List.append_assoc]

theorem pyParts_simple (l : String) (h : simpleLabel l = true) : pyParts l = [l] := by
  obtain ⟨h1, h2, -, h4⟩ := simpleLabel_facts l h
  unfold pyParts
  rw [splitSlashAux_no_slash l.data h4 []]
  simp only [List.reverse_nil, List.nil_append]
  have hmk : String.mk l.data = l := rfl
  rw [hmk, List.filter_cons]
  rw [if_pos (by rw [decide_eq_true_eq]; exact fun hc => hc.elim h1 h2)]
  rfl

theorem isAbsolute_eq_false_of_simple (l : String) (h : simpleLabel l = true) :
    isAbsolute l = false := by
  obtain ⟨-, -, -, h4⟩ := simpleLabel_facts l h
  unfold isAbsolute
  cases hd : l.data with
  | nil => rfl
  | cons c cs =>
      rw [hd] at h4
      exact decide_eq_false (fun he => h4 (he ▸ List.mem_cons_self c cs))

theorem resolveDir_single (ds : List (List String)) (l : String) (h2 : ¬l = "..") :
    resolveDir ds [l] =
      (if [l] ∈ ds then Resolved.inTree [l] else Resolved.missing) := by
  have hr : resolveDir ds [l] =
      (if l = ".." then Resolved.scriptDir
       else if [l] ∈ ds then Resolved.inTree [l] else Resolved.missing) := rfl
  rw [hr, if_neg h2]

theorem mkdirLabel_simple (ds : List (List String)) (l : String) (h : simpleLabel l = true) :
    mkdirLabel ds l = some (if [l] ∈ ds then ds else ds ++ [[l]]) := by
  obtain ⟨-, -, h3, -⟩ := simpleLabel_facts l h
  unfold mkdirLabel
  rw [if_neg (by rw [isAbsolute_eq_false_of_simple l h]; exact Bool.false_ne_true),
    pyParts_simple l h, resolveDir_single ds l h3]
  by_cases hm : [l] ∈ ds
  · rw [if_pos hm, if_pos hm]
  · rw [if_neg hm, if_neg hm]
    rfl

theorem copyDest_simple (ds : List (List String)) (l : String) (h : simpleLabel l = true) :
    copyDest ds l = (if [l] ∈ ds then some (some [l]) else none) := by
  obtain ⟨-, -, h3, -⟩ := simpleLabel_facts l h
  unfold copyDest
  rw [if_neg (by rw [isAbsolute_eq_false_of_simple l h]; exact Bool.false_ne_true),
    pyParts_simple l h, resolveDir_single ds l h3]
  by_cases hm : [l] ∈ ds
  · rw [if_pos hm, if_pos hm]
  · rw [if_neg hm, if_neg hm]

theorem singleton_mem_map (D : List String) (l : String) :
    ([l] ∈ D.map (fun c => [c])) ↔ l ∈ D := by
  simp [List.mem_map]

theorem mkdirFold_simple (D : List String) (l : String) (h : simpleLabel l = true) :
    mkdirFold ((D.map fun c => [c]), false) l =
      ((if l ∈ D then D else D ++ [l]).map (fun c => [c]), false) := by
  unfold mkdirFold
  rw [if_neg (by simp), mkdirLabel_simple (D.map fun c => [c]) l h]
  by_cases hm : l ∈ D
  · rw [if_pos ((singleton_mem_map D l).mpr hm), if_pos hm]
  · rw [if_neg (fun hc => hm ((singleton_mem_map D l).mp hc)), if_neg hm]
    simp [List.map_append]

theorem setupDirs_foldl_simple (labels : List String)
    (h : ∀ l ∈ labels, simpleLabel l = true) :
    ∀ D : List String,
      labels.foldl mkdirFold ((D.map fun c => [c]), false) =
        ((labels.foldl (fun a c => if c ∈ a then a else a ++ [c]) D).map (fun c => [c]),
          false) := by
  induction labels with
  | nil => intro D; rfl
  | cons l tl ih =>
      intro D
      have hl := h l (List.mem_cons_self l tl)
      have htl : ∀ x ∈ tl, simpleLabel x = true := fun x hx => h x (List.mem_cons_of_mem l hx)
      simp only [List.foldl_cons]
      rw [mkdirFold_simple D l hl]
      exact ih htl (if l ∈ D then D else D ++ [l])

theorem setupDirs_simple (labels : List String) (h : ∀ l ∈ labels, simpleLabel l = true) :
    setupDirs labels = ((dedupKeys labels).map (fun c => [c]), false) :=
  setupDirs_foldl_simple labels h []

/-! ### The classify loop invariant -/

/-- Invariant of the classify loop: the tally keys are exactly the
deduplicated label list (the `results` dict keys never change), and no
two copied files share a (directory, base name) key. -/
structure LoopInv (svc : Service) (st : LoopState) : Prop where
  keys_eq : tallyKeys st.results = dedupKeys svc.class_labels
  fkeys_nodup : (st.out.files.map fkey).Nodup

theorem classifiedCount_nil (svc : Service) : classifiedCount svc [] = 0 := rfl

theorem classifiedCount_cons (svc : Service) (f : FileEntry) (tl : List FileEntry) :
    classifiedCount svc (f :: tl) =
      (if isSuccessNonempty svc f = true then 1 else 0) + classifiedCount svc tl := by
  unfold classifiedCount
  rw [List.filter_cons]
  cases hif : isSuccessNonempty svc f
  · rw [if_neg (by simp), if_neg (by simp)]
    omega
  · rw [if_pos rfl, if_pos rfl, List.length_cons]
    omega

theorem classifyStep_inv (svc : Service) (st : LoopState) (f : FileEntry) (st' : LoopState)
    (cr : Bool) (hinv : LoopInv svc st) (h : classifyStep svc st f = (st', cr)) :
    LoopInv svc st' ∧ st'.out.dirs = st.out.dirs ∧
      (cr = false →
        tallySum st'.results =
          tallySum st.results + (if isSuccessNonempty svc f = true then 1 else 0) ∧
        st'.processed = st.processed + (if isSuccessNonempty svc f = true then 1 else 0) ∧
        ((∀ l ∈ svc.class_labels, simpleLabel l = true) →
          ∀ e ∈ st'.out.files, e ∈ st.out.files ∨
            ∃ c, c ∈ svc.class_labels ∧ e.1 = [c] ∧ [c] ∈ st.out.dirs)) := by
  unfold classifyStep predict_image_using_django_service at h
  unfold isSuccessNonempty
  cases hp : svc.process_image f.content with
  | none =>
      rw [hp] at h
      have h2 : ((st, false) : LoopState × Bool) = (st', cr) := h
      injection h2 with e1 e2
      subst e1; subst e2
      exact ⟨hinv, rfl, fun _ => ⟨by simp, by simp, fun _ e he => Or.inl he⟩⟩
  | some r =>
      rw [hp] at h
      have h1 : (match (if r.success = true then some (r.prediction, r.confidence / 100)
            else none : Option (String × Rat)) with
          | some (pred, _conf) =>
              if pred ≠ "" then
                match copyDest st.out.dirs pred with
                | none => (st, true)
                | some loc =>
                    if pred ∈ tallyKeys st.results then
                      ((⟨copyLoc st.out loc f.name f.content,
                         bumpTally st.results pred, st.processed + 1⟩ : LoopState), false)
                    else
                      ((⟨copyLoc st.out loc f.name f.content,
                         st.results, st.processed⟩ : LoopState), true)
              else (st, false)
          | none => (st, false)) = (st', cr) := h
      cases hs : r.success with
      | false =>
          rw [hs] at h1
          have h2 : ((st, false) : LoopState × Bool) = (st', cr) := h1
          injection h2 with e1 e2
          subst e1; subst e2
          exact ⟨hinv, rfl, fun _ => ⟨by simp [hs], by simp [hs], fun _ e he => Or.inl he⟩⟩
      | true =>
          rw [hs] at h1
          have h2 : (if r.prediction ≠ "" then
              (match copyDest st.out.dirs r.prediction with
              | none => ((st, true) : LoopState × Bool)
              | some loc =>
                  if r.prediction ∈ tallyKeys st.results then
                    ((⟨copyLoc st.out loc f.name f.content,
                       bumpTally st.results r.prediction, st.processed + 1⟩ : LoopState), false)
                  else
                    ((⟨copyLoc st.out loc f.name f.content,
                       st.results, st.processed⟩ : LoopState), true))
            else (st, false)) = (st', cr) := h1
          by_cases hne : r.prediction = ""
          · rw [if_neg (fun hh => hh hne)] at h2
            injection h2 with e1 e2
            subst e1; subst e2
            exact ⟨hinv, rfl, fun _ =>
              ⟨by simp [hs, hne], by simp [hs, hne], fun _ e he => Or.inl he⟩⟩
          · rw [if_pos hne] at h2
            cases hcd : copyDest st.out.dirs r.prediction with
            | none =>
                rw [hcd] at h2
                injection h2 with e1 e2
                subst e1; subst e2
                exact ⟨hinv, rfl, fun hcf => Bool.noConfusion hcf⟩
            | some loc =>
                rw [hcd] at h2
                have h3 : (if r.prediction ∈ tallyKeys st.results then
                    ((⟨copyLoc st.out loc f.name f.content,
                       bumpTally st.results r.prediction, st.processed + 1⟩ : LoopState), false)
                  else
                    ((⟨copyLoc st.out loc f.name f.content,
                       st.results, st.processed⟩ : LoopState), true)) = (st', cr) := h2
                by_cases hk : r.prediction ∈ tallyKeys st.results
                · rw [if_pos hk] at h3
                  injection h3 with e1 e2
                  subst e1; subst e2
                  have hknd : (tallyKeys st.results).Nodup := by
                    rw [hinv.keys_eq]; exact dedupKeys_nodup svc.class_labels
                  refine ⟨⟨?_, ?_⟩, ?_, fun _ => ⟨?_, ?_, ?_⟩⟩
                  · show tallyKeys (bumpTally st.results r.prediction) = _
                    rw [tallyKeys_bumpTally]
                    exact hinv.keys_eq
                  · show ((copyLoc st.out loc f.name f.content).files.map fkey).Nodup
                    exact fkeys_copyLoc_nodup st.out loc f.name f.content hinv.fkeys_nodup
                  · show (copyLoc st.out loc f.name f.content).dirs = st.out.dirs
                    exact copyLoc_dirs st.out loc f.name f.content
                  · show tallySum (bumpTally st.results r.prediction) = _
                    rw [tallySum_bumpTally st.results r.prediction hknd hk]
                    simp [hs, hne]
                  · show st.processed + 1 = _
                    simp [hs, hne]
                  · intro hsimple e he
                    rcases mem_copyLoc_files st.out loc f.name f.content e he with
                      hm | ⟨p, hloc, rfl⟩
                    · exact Or.inl hm
                    · have hmem : r.prediction ∈ svc.class_labels := by
                        have hk2 : r.prediction ∈ dedupKeys svc.class_labels := by
                          rw [← hinv.keys_eq]; exact hk
                        exact (mem_dedupKeys svc.class_labels r.prediction).mp hk2
                      have hsl : simpleLabel r.prediction = true := hsimple r.prediction hmem
                      rw [copyDest_simple st.out.dirs r.prediction hsl] at hcd
                      by_cases hm2 : [r.prediction] ∈ st.out.dirs
                      · rw [if_pos hm2] at hcd
                        have hcd2 : some [r.prediction] = loc := Option.some.inj hcd
                        have hp2 : p = [r.prediction] := by
                          rw [← hcd2] at hloc
                          exact (Option.some.inj hloc).symm
                        subst hp2
                        exact Or.inr ⟨r.prediction, hmem, rfl, hm2⟩
                      · rw [if_neg hm2] at hcd
                        exact Option.noConfusion hcd
                · rw [if_neg hk] at h3
                  injection h3 with e1 e2
                  subst e1; subst e2
                  refine ⟨⟨hinv.keys_eq, ?_⟩, ?_, fun hcf => Bool.noConfusion hcf⟩
                  · show ((copyLoc st.out loc f.name f.content).files.map fkey).Nodup
                    exact fkeys_copyLoc_nodup st.out loc f.name f.content hinv.fkeys_nodup
                  · show (copyLoc st.out loc f.name f.content).dirs = st.out.dirs
                    exact copyLoc_dirs st.out loc f.name f.content

theorem runLoop_inv (svc : Service) (fs : List FileEntry) :
    ∀ st st' cr, LoopInv svc st → runLoop svc st fs = (st', cr) →
      LoopInv svc st' ∧ st'.out.dirs = st.out.dirs ∧
        (cr = false →
          tallySum st'.results = tallySum st.results + classifiedCount svc fs ∧
          st'.processed = st.processed + classifiedCount svc fs ∧
          ((∀ l ∈ svc.class_labels, simpleLabel l = true) →
            ∀ e ∈ st'.out.files, e ∈ st.out.files ∨
              ∃ c, c ∈ svc.class_labels ∧ e.1 = [c] ∧ [c] ∈ st.out.dirs)) := by
  induction fs with
  | nil =>
      intro st st' cr hinv h
      have h2 : ((st, false) : LoopState × Bool) = (st', cr) := h
      injection h2 with e1 e2
      subst e1; subst e2
      exact ⟨hinv, rfl, fun _ =>
        ⟨by simp [classifiedCount_nil], by simp [classifiedCount_nil],
          fun _ e he => Or.inl he⟩⟩
  | cons f tl ih =>
      intro st st' cr hinv h
      have h2 : (match classifyStep svc st f with
          | (st1, true) => (st1, true)
          | (st1, false) => runLoop svc st1 tl) = (st', cr) := h
      cases hstep : classifyStep svc st f with
      | mk st1 cr1 =>
          rw [hstep] at h2
          obtain ⟨hinv1, hdirs1, hrest1⟩ := classifyStep_inv svc st f st1 cr1 hinv hstep
          cases cr1 with
          | true =>
              have h3 : ((st1, true) : LoopState × Bool) = (st', cr) := h2
              injection h3 with e1 e2
              subst e1; subst e2
              exact ⟨hinv1, hdirs1, fun hcf => Bool.noConfusion hcf⟩
          | false =>
              have h3 : runLoop svc st1 tl = (st', cr) := h2
              obtain ⟨hsum1, hproc1, hfiles1⟩ := hrest1 rfl
              obtain ⟨hinv2, hdirs2, hrest2⟩ := ih st1 st' cr hinv1 h3
              refine ⟨hinv2, hdirs2.trans hdirs1, fun hcf => ?_⟩
              obtain ⟨hsum2, hproc2, hfiles2⟩ := hrest2 hcf
              refine ⟨?_, ?_, ?_⟩
              · rw [classifiedCount_cons]
                cases hif : isSuccessNonempty svc f <;>
                  rw [hif] at hsum1 <;> simp at hsum1 ⊢ <;> omega
              · rw [classifiedCount_cons]
                cases hif : isSuccessNonempty svc f <;>
                  rw [hif] at hproc1 <;> simp at hproc1 ⊢ <;> omega
              · intro hsimple e he
                rcases hfiles2 hsimple e he with h4 | ⟨c, hc1, hc2, hc3⟩
                · rcases hfiles1 hsimple e h4 with h5 | h6
                  · exact Or.inl h5
                  · exact Or.inr h6
                · refine Or.inr ⟨c, hc1, hc2, ?_⟩
                  rw [← hdirs1]
                  exact hc3

/-- The loop state right after `setup_output_directory` and the
`results` initialization, when setup did not raise. -/
def startState (svc : Service) : LoopState :=
  ⟨(setup_output_directory svc.class_labels).1, initResults svc.class_labels, 0⟩

theorem startState_inv (svc : Service) : LoopInv svc (startState svc) :=
  ⟨tallyKeys_initResults svc.class_labels, List.nodup_nil⟩

theorem classify_images_early (svc : Service) (src : SourceDir) (out0 : Option OutputDir)
    (he : find_image_files src = []) :
    classify_images svc (some src) out0 = ⟨out0, [], 0, Outcome.earlyNoImages⟩ := by
  show (if find_image_files src = [] then
      (⟨out0, [], 0, Outcome.earlyNoImages⟩ : RunState)
    else if (setup_output_directory svc.class_labels).2 = true then
      ⟨some (setup_output_directory svc.class_labels).1, [], 0, Outcome.crashed⟩
    else
      ⟨some (runLoop svc (startState svc) (find_image_files src)).1.out,
       (runLoop svc (startState svc) (find_image_files src)).1.results,
       (runLoop svc (startState svc) (find_image_files src)).1.processed,
       if (runLoop svc (startState svc) (find_image_files src)).2 = true then Outcome.crashed
       else Outcome.completed⟩) = _
  rw [if_pos he]

theorem classify_images_setup_crash (svc : Service) (src : SourceDir)
    (out0 : Option OutputDir) (hfe : ¬find_image_files src = [])
    (hsc : (setup_output_directory svc.class_labels).2 = true) :
    classify_images svc (some src) out0 =
      ⟨some (setup_output_directory svc.class_labels).1, [], 0, Outcome.crashed⟩ := by
  show (if find_image_files src = [] then
      (⟨out0, [], 0, Outcome.earlyNoImages⟩ : RunState)
    else if (setup_output_directory svc.class_labels).2 = true then
      ⟨some (setup_output_directory svc.class_labels).1, [], 0, Outcome.crashed⟩
    else
      ⟨some (runLoop svc (startState svc) (find_image_files src)).1.out,
       (runLoop svc (startState svc) (find_image_files src)).1.results,
       (runLoop svc (startState svc) (find_image_files src)).1.processed,
       if (runLoop svc (startState svc) (find_image_files src)).2 = true then Outcome.crashed
       else Outcome.completed⟩) = _
  rw [if_neg hfe, if_pos hsc]

theorem classify_images_run (svc : Service) (src : SourceDir) (out0 : Option OutputDir)
    (hfe : ¬find_image_files src = [])
    (hsc : (setup_output_directory svc.class_labels).2 = false) :
    classify_images svc (some src) out0 =
      ⟨some (runLoop svc (startState svc) (find_image_files src)).1.out,
       (runLoop svc (startState svc) (find_image_files src)).1.results,
       (runLoop svc (startState svc) (find_image_files src)).1.processed,
       if (runLoop svc (startState svc) (find_image_files src)).2 = true then Outcome.crashed
       else Outcome.completed⟩ := by
  show (if find_image_files src = [] then
      (⟨out0, [], 0, Outcome.earlyNoImages⟩ : RunState)
    else if (setup_output_directory svc.class_labels).2 = true then
      ⟨some (setup_output_directory svc.class_labels).1, [], 0, Outcome.crashed⟩
    else
      ⟨some (runLoop svc (startState svc) (find_image_files src)).1.out,
       (runLoop svc (startState svc) (find_image_files src)).1.results,
       (runLoop svc (startState svc) (find_image_files src)).1.processed,
       if (runLoop svc (startState svc) (find_image_files src)).2 = true then Outcome.crashed
       else Outcome.completed⟩) = _
  rw [if_neg hfe, if_neg (by simp [hsc])]

/-- Dividing a number in [0, 100] by 100 lands in [0, 1]. -/
theorem div100_mem_unit (q : Rat) (h0 : 0 ≤ q) (h100 : q ≤ 100) :
    0 ≤ q / 100 ∧ q / 100 ≤ 1 :=
  ⟨div_nonneg h0 (by norm_num), (div_le_one (by norm_num)).mpr h100⟩

/-! ### Claim theorems -/

/-- Claim C3: if the source directory does not exist, or no file in it
(searched recursively) has an allow-listed extension, `classify_images`
returns early and the output directory is never created, deleted, or
modified: the output state is exactly what it was before the run. -/
theorem early_return_preserves_output (svc : Service) (source : Option SourceDir)
    (out0 : Option OutputDir)
    (h : ∀ src, source = some src → find_image_files src = []) :
    (classify_images svc source out0).out = out0 ∧
      ((classify_images svc source out0).outcome = Outcome.earlyNoSource ∨
        (classify_images svc source out0).outcome = Outcome.earlyNoImages) := by
  cases source with
  | none => exact ⟨rfl, Or.inl rfl⟩
  | some src =>
      have he := h src rfl
      rw [classify_images_early svc src out0 he]
      exact ⟨rfl, Or.inr rfl⟩

/-- Claim C4: a file whose prediction attempt fails — the service
returns `success = false`, or an exception is raised while opening or
predicting — is logged and skipped: the loop state is unchanged (no
copy, no tally, no processed increment) and the loop continues with the
remaining files. -/
theorem failed_prediction_skips_file (svc : Service) (st : LoopState) (f : FileEntry)
    (tl : List FileEntry)
    (h : svc.process_image f.content = none ∨
      ∃ r, svc.process_image f.content = some r ∧ r.success = false) :
    predict_image_using_django_service svc f.content = none ∧
      classifyStep svc st f = (st, false) ∧
      runLoop svc st (f :: tl) = runLoop svc st tl := by
  have hpn : predict_image_using_django_service svc f.content = none := by
    unfold predict_image_using_django_service
    rcases h with h | ⟨r, h, hs⟩
    · rw [h]
    · rw [h]
      have : (if r.success = true then some (r.prediction, r.confidence / 100)
          else none : Option (String × Rat)) = none := by
        rw [hs]
        simp
      exact this
  have hstep : classifyStep svc st f = (st, false) := by
    unfold classifyStep
    rw [hpn]
  refine ⟨hpn, hstep, ?_⟩
  have h2 : runLoop svc st (f :: tl) = (match classifyStep svc st f with
      | (st1, true) => (st1, true)
      | (st1, false) => runLoop svc st1 tl) := rfl
  rw [h2, hstep]

/-- A service that classifies every image into the class `.`.  The dot
is its only known label, so the result record honors the interface
contract that a successful prediction is one of the known labels. -/
def svcDot : Service := ⟨["."], fun _ => some ⟨true, ".", 95, ""⟩⟩

/-- A source directory holding a single image file for the dot-label
run. -/
def srcDot : SourceDir := ⟨[⟨[], "a.png", [4]⟩]⟩

/-- Claim C5 (counterexample): an image can be successfully classified
— the run completes, the predicted label's tally and the processed
count both read 1 — while the copy lands in no class subfolder at all:
for the known label `.` the destination `OUTPUT_DIR/./a.png` collapses
to the output root, `mkdir` created no subdirectory, and the output
tree ends with no subdirectories and the file at its root. -/
theorem copy_into_subfolder_counterexample :
    (classify_images svcDot (some srcDot) none).outcome = Outcome.completed ∧
      (classify_images svcDot (some srcDot) none).processed = 1 ∧
      getTally (classify_images svcDot (some srcDot) none).results "." = 1 ∧
      (classify_images svcDot (some srcDot) none).out =
        some ⟨[], [([], "a.png", [4])]⟩ := by
  refine ⟨by decide, by decide, by decide, by decide⟩

/-- Claim C5 (amended): a file whose prediction succeeds with a known
label that is a plain directory name (non-empty, not `.` or `..`, no
separator) whose subdirectory exists is copied — contents and metadata
travel together in this model — into exactly the subfolder named after
the predicted label (the source entry itself is read, never written),
and exactly that label's tally is incremented by exactly one. -/
theorem successful_prediction_copies_once (svc : Service) (st : LoopState) (f : FileEntry)
    (r : PredResult)
    (hp : svc.process_image f.content = some r) (hs : r.success = true)
    (hsimple : simpleLabel r.prediction = true)
    (hd : [r.prediction] ∈ st.out.dirs)
    (hk : r.prediction ∈ tallyKeys st.results)
    (hknd : (tallyKeys st.results).Nodup) :
    classifyStep svc st f =
        (⟨copyInto st.out [r.prediction] f.name f.content,
          bumpTally st.results r.prediction, st.processed + 1⟩, false) ∧
      ([r.prediction], f.name, f.content) ∈
        (copyInto st.out [r.prediction] f.name f.content).files ∧
      (∀ e ∈ (copyInto st.out [r.prediction] f.name f.content).files,
        e ∈ st.out.files ∨ e = ([r.prediction], f.name, f.content)) ∧
      getTally (bumpTally st.results r.prediction) r.prediction =
        getTally st.results r.prediction + 1 ∧
      (∀ c, c ≠ r.prediction →
        getTally (bumpTally st.results r.prediction) c = getTally st.results c) ∧
      (copyInto st.out [r.prediction] f.name f.content).dirs = st.out.dirs := by
  obtain ⟨hne, -, -, -⟩ := simpleLabel_facts r.prediction hsimple
  have hpred : predict_image_using_django_service svc f.content =
      some (r.prediction, r.confidence / 100) := by
    unfold predict_image_using_django_service
    rw [hp]
    have : (if r.success = true then some (r.prediction, r.confidence / 100)
        else none : Option (String × Rat)) = some (r.prediction, r.confidence / 100) := by
      rw [hs]
      simp
    exact this
  refine ⟨?_, ?_, ?_, ?_, ?_, copyInto_dirs st.out [r.prediction] f.name f.content⟩
  · unfold classifyStep
    rw [hpred]
    have h2 : (if r.prediction ≠ "" then
        (match copyDest st.out.dirs r.prediction with
        | none => ((st, true) : LoopState × Bool)
        | some loc =>
            if r.prediction ∈ tallyKeys st.results then
              ((⟨copyLoc st.out loc f.name f.content,
                 bumpTally st.results r.prediction, st.processed + 1⟩ : LoopState), false)
            else
              ((⟨copyLoc st.out loc f.name f.content,
                 st.results, st.processed⟩ : LoopState), true))
      else (st, false)) =
        ((⟨copyInto st.out [r.prediction] f.name f.content,
          bumpTally st.results r.prediction, st.processed + 1⟩ : LoopState), false) := by
      rw [if_pos hne, copyDest_simple st.out.dirs r.prediction hsimple, if_pos hd]
      show (if r.prediction ∈ tallyKeys st.results then
          ((⟨copyLoc st.out (some [r.prediction]) f.name f.content,
             bumpTally st.results r.prediction, st.processed + 1⟩ : LoopState), false)
        else
          ((⟨copyLoc st.out (some [r.prediction]) f.name f.content,
             st.results, st.processed⟩ : LoopState), true)) = _
      rw [if_pos hk]
      rfl
    exact h2
  · exact (mem_copyInto_files st.out [r.prediction] f.name f.content _).mpr (Or.inr rfl)
  · intro e he
    rcases (mem_copyInto_files st.out [r.prediction] f.name f.content e).mp he with
      ⟨hm, -⟩ | rfl
    · exact Or.inl hm
    · exact Or.inr rfl
  · exact getTally_bumpTally_self st.results r.prediction hknd hk
  · intro c hc
    exact getTally_bumpTally_ne st.results r.prediction c hc

/-- Claim C6: running `classify_images` twice in succession with the
same source directory and the same (deterministic, function-valued)
service produces an identical output directory tree after the second
run as after the first. -/
theorem classify_images_idempotent (svc : Service) (source : Option SourceDir)
    (out0 : Option OutputDir) :
    (classify_images svc source (classify_images svc source out0).out).out =
      (classify_images svc source out0).out := by
  cases source with
  | none => rfl
  | some src =>
      by_cases h : find_image_files src = []
      · rw [classify_images_early svc src out0 h,
          classify_images_early svc src _ h]
      · by_cases hsc : (setup_output_directory svc.class_labels).2 = true
        · rw [classify_images_setup_crash svc src out0 h hsc,
            classify_images_setup_crash svc src _ h hsc]
        · rw [Bool.not_eq_true] at hsc
          rw [classify_images_run svc src out0 h hsc,
            classify_images_run svc src _ h hsc]

/-- A service that reports success with an empty prediction string.
The empty string is among its known labels, so the result record honors
the interface contract that a successful prediction is one of the known
labels. -/
def svcEmptyPred : Service :=
  ⟨["Mild", ""], fun _ => some ⟨true, "", 100, ""⟩⟩

/-- A source directory holding a single image file. -/
def srcOnePng : SourceDir :=
  ⟨[⟨[], "a.png", [0]⟩]⟩

/-- Claim C1 (counterexample): a run can complete with one image for
which the service returned `success = true`, yet with tally sum 0 and
processed count 0 — the Python truthiness test `if predicted_class:`
treats an empty prediction string as a failure, so success count and
tally sum differ. -/
theorem tally_sum_counterexample :
    (classify_images svcEmptyPred (some srcOnePng) none).outcome = Outcome.completed ∧
      successCount svcEmptyPred (find_image_files srcOnePng) = 1 ∧
      tallySum (classify_images svcEmptyPred (some srcOnePng) none).results = 0 ∧
      (classify_images svcEmptyPred (some srcOnePng) none).processed = 0 := by
  refine ⟨by decide, by decide, by decide, by decide⟩

/-- Claim C1 (amended): in every run of the batch classifier that
completes, the sum of the per-class tallies equals the number of
discovered images for which the service returned `success = true`
together with a non-empty predicted label, and this sum also equals the
final processed count. -/
theorem tally_sum_eq_classified_count (svc : Service) (src : SourceDir)
    (out0 : Option OutputDir)
    (h : (classify_images svc (some src) out0).outcome = Outcome.completed) :
    tallySum (classify_images svc (some src) out0).results =
        classifiedCount svc (find_image_files src) ∧
      (classify_images svc (some src) out0).processed =
        classifiedCount svc (find_image_files src) := by
  by_cases hfe : find_image_files src = []
  · rw [classify_images_early svc src out0 hfe] at h
    simp at h
  · by_cases hsc : (setup_output_directory svc.class_labels).2 = true
    · rw [classify_images_setup_crash svc src out0 hfe hsc] at h
      simp at h
    · rw [Bool.not_eq_true] at hsc
      rw [classify_images_run svc src out0 hfe hsc] at h
      have h2 : (if (runLoop svc (startState svc) (find_image_files src)).2 = true then
          Outcome.crashed else Outcome.completed) = Outcome.completed := h
      by_cases hcr : (runLoop svc (startState svc) (find_image_files src)).2 = true
      · rw [if_pos hcr] at h2
        exact absurd h2 (by decide)
      · rw [Bool.not_eq_true] at hcr
        obtain ⟨hinv, hdirs, hrest⟩ :=
          runLoop_inv svc (find_image_files src) (startState svc)
            (runLoop svc (startState svc) (find_image_files src)).1
            (runLoop svc (startState svc) (find_image_files src)).2
            (startState_inv svc) rfl
        obtain ⟨hsum, hproc, -⟩ := hrest hcr
        have h0 : tallySum (startState svc).results = 0 := tallySum_initResults svc.class_labels
        have hp0 : (startState svc).processed = 0 := rfl
        rw [classify_images_run svc src out0 hfe hsc]
        constructor
        · show tallySum (runLoop svc (startState svc) (find_image_files src)).1.results = _
          rw [hsum, h0, Nat.zero_add]
        · show (runLoop svc (startState svc) (find_image_files src)).1.processed = _
          rw [hproc, hp0, Nat.zero_add]

/-- Claim C2 (counterexample): at a service whose known labels are
`Mild` and the empty string — admissible, since the empty string is
among its known labels — the run completes, but the output directory
ends with the single subdirectory `Mild`: `(OUTPUT_DIR / '').mkdir`
collapses to the output root and creates nothing, so the set of created
subdirectories is strictly smaller than the label set. -/
theorem output_dirs_counterexample :
    (classify_images svcEmptyPred (some srcOnePng) none).outcome = Outcome.completed ∧
      (classify_images svcEmptyPred (some srcOnePng) none).out =
        some ⟨[["Mild"]], []⟩ ∧
      "" ∈ svcEmptyPred.class_labels ∧
      ¬(∀ c ∈ svcEmptyPred.class_labels, [c] ∈ ([["Mild"]] : List (List String))) := by
  refine ⟨by decide, by decide, by decide, by decide⟩

/-- Claim C2 (amended): in every run that reaches the copying phase,
the output tree starts empty and each class subdirectory is created at
setup time, before any copy is attempted; provided every known label is
a plain directory name (non-empty, not `.` or `..`, no separator),
setup raises nothing and the set of created subdirectories is exactly
the label set fetched from the service; the subdirectories are
unchanged by the loop, and in a completed run every copied file sits in
the subdirectory named by a known label. -/
theorem output_dirs_match_labels (svc : Service) (src : SourceDir) (out0 : Option OutputDir)
    (hsimple : ∀ l ∈ svc.class_labels, simpleLabel l = true)
    (h : (classify_images svc (some src) out0).outcome = Outcome.completed ∨
      (classify_images svc (some src) out0).outcome = Outcome.crashed) :
    (setup_output_directory svc.class_labels).1.files = [] ∧
      (setup_output_directory svc.class_labels).2 = false ∧
      ∃ o, (classify_images svc (some src) out0).out = some o ∧
        o.dirs = (setup_output_directory svc.class_labels).1.dirs ∧
        (∀ c, [c] ∈ o.dirs ↔ c ∈ svc.class_labels) ∧
        (∀ d ∈ o.dirs, ∃ c, c ∈ svc.class_labels ∧ d = [c]) ∧
        ((classify_images svc (some src) out0).outcome = Outcome.completed →
          ∀ e ∈ o.files, ∃ c, c ∈ svc.class_labels ∧ e.1 = [c] ∧ [c] ∈ o.dirs) := by
  have hsetup : setupDirs svc.class_labels =
      ((dedupKeys svc.class_labels).map (fun c => [c]), false) :=
    setupDirs_simple svc.class_labels hsimple
  have hsc : (setup_output_directory svc.class_labels).2 = false := by
    show (setupDirs svc.class_labels).2 = false
    rw [hsetup]
  have hsd : (setup_output_directory svc.class_labels).1.dirs =
      (dedupKeys svc.class_labels).map (fun c => [c]) := by
    show (setupDirs svc.class_labels).1 = _
    rw [hsetup]
  refine ⟨rfl, hsc, ?_⟩
  by_cases hfe : find_image_files src = []
  · rw [classify_images_early svc src out0 hfe] at h
    rcases h with h | h <;> simp at h
  · obtain ⟨hinv, hdirs, hrest⟩ :=
      runLoop_inv svc (find_image_files src) (startState svc)
        (runLoop svc (startState svc) (find_image_files src)).1
        (runLoop svc (startState svc) (find_image_files src)).2
        (startState_inv svc) rfl
    have hstart : (startState svc).out.dirs = (setup_output_directory svc.class_labels).1.dirs :=
      rfl
    refine ⟨(runLoop svc (startState svc) (find_image_files src)).1.out, ?_, ?_, ?_, ?_, ?_⟩
    · rw [classify_images_run svc src out0 hfe hsc]
    · rw [hdirs, hstart]
    · intro c
      rw [hdirs, hstart, hsd, singleton_mem_map]
      exact mem_dedupKeys svc.class_labels c
    · intro d hd
      rw [hdirs, hstart, hsd] at hd
      rcases List.mem_map.mp hd with ⟨c, hc, rfl⟩
      exact ⟨c, (mem_dedupKeys svc.class_labels c).mp hc, rfl⟩
    · intro hcomp e he
      rw [classify_images_run svc src out0 hfe hsc] at hcomp
      have h2 : (if (runLoop svc (startState svc) (find_image_files src)).2 = true then
          Outcome.crashed else Outcome.completed) = Outcome.completed := hcomp
      by_cases hcr : (runLoop svc (startState svc) (find_image_files src)).2 = true
      · rw [if_pos hcr] at h2
        exact absurd h2 (by decide)
      · rw [Bool.not_eq_true] at hcr
        obtain ⟨-, -, hfiles⟩ := hrest hcr
        rcases hfiles hsimple e he with hm | ⟨c, hc1, hc2, hc3⟩
        · exact absurd hm (by
            have : (startState svc).out.files = [] := rfl
            rw [this]
            exact List.not_mem_nil e)
        · refine ⟨c, hc1, hc2, ?_⟩
          rw [hdirs]
          exact hc3

/-- A service that classifies every image as Mild. -/
def svcAllMild : Service :=
  ⟨["Mild"], fun _ => some ⟨true, "Mild", 90, ""⟩⟩

/-- A source directory with two files of the same base name in
different subdirectories. -/
def srcDupNames : SourceDir :=
  ⟨[⟨["d1"], "a.png", [1]⟩, ⟨["d2"], "a.png", [2]⟩]⟩

/-- Claim C10: destination files are keyed by directory and base name
only, so after any run no directory of the output tree holds two files
with the same base name; concretely, two source files named `a.png` in
different subdirectories, both predicted Mild, leave a single file in
the Mild subfolder — the later copy's contents — while the Mild tally
reads 2, exceeding the file count. -/
theorem basename_collision_overwrites :
    (∀ (svc : Service) (src : SourceDir) (out0 : Option OutputDir) (o : OutputDir),
      ((classify_images svc (some src) out0).outcome = Outcome.completed ∨
        (classify_images svc (some src) out0).outcome = Outcome.crashed) →
      (classify_images svc (some src) out0).out = some o →
      (o.files.map fkey).Nodup) ∧
    ((classify_images svcAllMild (some srcDupNames) none).out =
        some ⟨[["Mild"]], [(["Mild"], "a.png", [2])]⟩ ∧
      getTally (classify_images svcAllMild (some srcDupNames) none).results "Mild" = 2 ∧
      (classify_images svcAllMild (some srcDupNames) none).outcome = Outcome.completed) := by
  constructor
  · intro svc src out0 o h hout
    by_cases hfe : find_image_files src = []
    · rw [classify_images_early svc src out0 hfe] at h
      rcases h with h | h <;> simp at h
    · by_cases hsc : (setup_output_directory svc.class_labels).2 = true
      · rw [classify_images_setup_crash svc src out0 hfe hsc] at hout
        have hout2 : some (setup_output_directory svc.class_labels).1 = some o := hout
        obtain rfl : (setup_output_directory svc.class_labels).1 = o :=
          Option.some.inj hout2
        exact List.nodup_nil
      · rw [Bool.not_eq_true] at hsc
        obtain ⟨hinv, -, -⟩ :=
          runLoop_inv svc (find_image_files src) (startState svc)
            (runLoop svc (startState svc) (find_image_files src)).1
            (runLoop svc (startState svc) (find_image_files src)).2
            (startState_inv svc) rfl
        rw [classify_images_run svc src out0 hfe hsc] at hout
        have hout2 : some (runLoop svc (startState svc) (find_image_files src)).1.out =
            some o := hout
        obtain rfl : (runLoop svc (startState svc) (find_image_files src)).1.out = o :=
          Option.some.inj hout2
        exact hinv.fkeys_nodup
  · refine ⟨by decide, by decide, by decide⟩

/-- Claim C7: for a test case whose file exists and preprocesses, the
checker's prediction is the service applied to the raw file bytes: the
outcome does not depend on the preprocessing function (as long as it
succeeds), and on a successful service result the checker reports
exactly the label and confidence that `predict_image_using_django_service`
returns for the same bytes. -/
theorem checker_reuses_service_prediction (svc : Service)
    (p1 p2 : Bytes → Option (List Rat)) (fsys : FileSystem) (tc : String × String)
    (b : Bytes) (hf : fsys tc.1 = some b)
    (h1 : (p1 b).isSome = true) (h2 : (p2 b).isSome = true) :
    checkCase svc p1 fsys tc = checkCase svc p2 fsys tc ∧
      ∀ r, svc.process_image b = some r → r.success = true →
        predict_image_using_django_service svc b =
          some (r.prediction, r.confidence / 100) ∧
        checkCase svc p1 fsys tc =
          (if r.prediction = tc.2 then CaseOutcome.matched r.prediction (r.confidence / 100)
           else CaseOutcome.mismatch r.prediction (r.confidence / 100)) := by
  obtain ⟨a1, ha1⟩ := Option.isSome_iff_exists.mp h1
  obtain ⟨a2, ha2⟩ := Option.isSome_iff_exists.mp h2
  constructor
  · simp [checkCase, hf, ha1, ha2]
  · intro r hr hsr
    constructor
    · have hpred : (if r.success = true then some (r.prediction, r.confidence / 100)
          else none : Option (String × Rat)) = some (r.prediction, r.confidence / 100) := by
        rw [hsr]
        simp
      unfold predict_image_using_django_service
      rw [hr]
      exact hpred
    · simp [checkCase, hf, ha1, hr, hsr]

/-- Claim C8: the checker handles each test case on its own — a missing
file is reported as not found (which is neither a pass nor a fail), a
preprocessing failure as a preprocessing error, a prediction exception
or a failure result as a prediction error — and the remaining cases are
still processed: the report is the case-by-case map of the per-case
outcome. -/
theorem checker_per_case_error_handling (svc : Service) (p : Bytes → Option (List Rat))
    (fsys : FileSystem) (tcs : List (String × String)) (t1 t2 t3 t4 : String × String)
    (b2 b3 b4 : Bytes) (a3 a4 : List Rat) (r4 : PredResult)
    (h1 : fsys t1.1 = none)
    (h2 : fsys t2.1 = some b2) (h2p : p b2 = none)
    (h3 : fsys t3.1 = some b3) (h3p : p b3 = some a3) (h3s : svc.process_image b3 = none)
    (h4 : fsys t4.1 = some b4) (h4p : p b4 = some a4) (h4s : svc.process_image b4 = some r4)
    (h4f : r4.success = false) :
    test_prediction_consistency svc p fsys tcs = tcs.map (checkCase svc p fsys) ∧
      checkCase svc p fsys t1 = CaseOutcome.notFound ∧
      (∀ s c, checkCase svc p fsys t1 ≠ CaseOutcome.matched s c ∧
        checkCase svc p fsys t1 ≠ CaseOutcome.mismatch s c) ∧
      checkCase svc p fsys t2 = CaseOutcome.preprocessFailed ∧
      checkCase svc p fsys t3 = CaseOutcome.predictionFailed ∧
      checkCase svc p fsys t4 = CaseOutcome.predictionFailed := by
  have hc1 : checkCase svc p fsys t1 = CaseOutcome.notFound := by
    simp [checkCase, h1]
  refine ⟨?_, hc1, ?_, ?_, ?_, ?_⟩
  · induction tcs with
    | nil => rfl
    | cons tc rest ih =>
        show checkCase svc p fsys tc :: test_prediction_consistency svc p fsys rest = _
        rw [List.map_cons, ih]
  · intro s c
    rw [hc1]
    exact ⟨fun hx => CaseOutcome.noConfusion hx, fun hx => CaseOutcome.noConfusion hx⟩
  · simp [checkCase, h2, h2p]
  · simp [checkCase, h3, h3p, h3s]
  · simp [checkCase, h4, h4p, h4s, h4f]

/-- Claim C9: when every confidence the service returns is on the
0–100 scale, the confidence either script reports after dividing by 100
lies in [0, 1] — for the batch classifier through
`predict_image_using_django_service`, for the consistency checker
through the confidence carried by a matched or mismatched outcome. -/
theorem confidence_in_unit_interval (svc : Service)
    (hall : ∀ b r, svc.process_image b = some r → 0 ≤ r.confidence ∧ r.confidence ≤ 100) :
    (∀ b s c, predict_image_using_django_service svc b = some (s, c) → 0 ≤ c ∧ c ≤ 1) ∧
      ∀ (pre : Bytes → Option (List Rat)) (fsys : FileSystem) (tc : String × String) (s : String)
        (c : Rat),
        (checkCase svc pre fsys tc = CaseOutcome.matched s c ∨
          checkCase svc pre fsys tc = CaseOutcome.mismatch s c) →
        0 ≤ c ∧ c ≤ 1 := by
  constructor
  · intro b s c h
    unfold predict_image_using_django_service at h
    cases hp : svc.process_image b with
    | none =>
        rw [hp] at h
        exact Option.noConfusion h
    | some r =>
        rw [hp] at h
        have h1 : (if r.success = true then some (r.prediction, r.confidence / 100)
            else none : Option (String × Rat)) = some (s, c) := h
        cases hsuc : r.success with
        | false =>
            rw [hsuc] at h1
            simp at h1
        | true =>
            rw [hsuc] at h1
            simp only [if_pos rfl, Option.some.injEq, Prod.mk.injEq] at h1
            obtain ⟨hc0, hc100⟩ := hall b r hp
            obtain ⟨-, rfl⟩ := h1
            exact div100_mem_unit r.confidence hc0 hc100
  · intro pre fsys tc s c h
    cases hf : fsys tc.1 with
    | none =>
        rw [show checkCase svc pre fsys tc = CaseOutcome.notFound from by
          simp [checkCase, hf]] at h
        rcases h with h | h <;> exact CaseOutcome.noConfusion h
    | some b =>
        cases hpre : pre b with
        | none =>
            rw [show checkCase svc pre fsys tc = CaseOutcome.preprocessFailed from by
              simp [checkCase, hf, hpre]] at h
            rcases h with h | h <;> exact CaseOutcome.noConfusion h
        | some arr =>
            cases hp : svc.process_image b with
            | none =>
                rw [show checkCase svc pre fsys tc = CaseOutcome.predictionFailed from by
                  simp [checkCase, hf, hpre, hp]] at h
                rcases h with h | h <;> exact CaseOutcome.noConfusion h
            | some r =>
                cases hsuc : r.success with
                | false =>
                    rw [show checkCase svc pre fsys tc = CaseOutcome.predictionFailed from by
                      simp [checkCase, hf, hpre, hp, hsuc]] at h
                    rcases h with h | h <;> exact CaseOutcome.noConfusion h
                | true =>
                    obtain ⟨hc0, hc100⟩ := hall b r hp
                    by_cases hq : r.prediction = tc.2
                    · rw [show checkCase svc pre fsys tc =
                          CaseOutcome.matched r.prediction (r.confidence / 100) from by
                        simp [checkCase, hf, hpre, hp, hsuc, hq]] at h
                      rcases h with h | h
                      · obtain ⟨-, hcc⟩ := CaseOutcome.matched.inj h
                        rw [← hcc]
                        exact div100_mem_unit r.confidence hc0 hc100
                      · exact CaseOutcome.noConfusion h
                    · rw [show checkCase svc pre fsys tc =
                          CaseOutcome.mismatch r.prediction (r.confidence / 100) from by
                        simp [checkCase, hf, hpre, hp, hsuc, hq]] at h
                      rcases h with h | h
                      · exact CaseOutcome.noConfusion h
                      · obtain ⟨-, hcc⟩ := CaseOutcome.mismatch.inj h
                        rw [← hcc]
                        exact div100_mem_unit r.confidence hc0 hc100

/-! ### Concrete witnesses -/

/-- A successful Mild result with confidence 87. -/
def predMild : PredResult := ⟨true, "Mild", 87, ""⟩

/-- A service that classifies every image as Mild with confidence 87. -/
def svcMild : Service := ⟨["Mild", "No_DR"], fun _ => some predMild⟩

/-- A source directory with two image files and one non-image file. -/
def srcImages : SourceDir :=
  ⟨[⟨[], "a.png", [1]⟩, ⟨["sub"], "b.JPG", [2]⟩, ⟨[], "notes.txt", [3]⟩]⟩

/-- A source directory containing no file with an allow-listed
extension. -/
def srcNoImages : SourceDir :=
  ⟨[⟨[], "notes.txt", [7]⟩, ⟨["sub"], "readme.md", [8]⟩]⟩

/-- A service whose prediction always fails with an error record. -/
def svcFail : Service := ⟨["Mild"], fun _ => some ⟨false, "", 0, "bad image"⟩⟩

theorem tally_sum_eq_classified_count_witness :
    (classify_images svcMild (some srcImages) none).outcome = Outcome.completed ∧
      (tallySum (classify_images svcMild (some srcImages) none).results =
          classifiedCount svcMild (find_image_files srcImages) ∧
        (classify_images svcMild (some srcImages) none).processed =
          classifiedCount svcMild (find_image_files srcImages)) :=
  ⟨by decide, tally_sum_eq_classified_count svcMild srcImages none (by decide)⟩

theorem output_dirs_match_labels_witness :
    (∀ l ∈ svcMild.class_labels, simpleLabel l = true) ∧
      ((classify_images svcMild (some srcImages) none).outcome = Outcome.completed ∨
        (classify_images svcMild (some srcImages) none).outcome = Outcome.crashed) ∧
      ((setup_output_directory svcMild.class_labels).1.files = [] ∧
        (setup_output_directory svcMild.class_labels).2 = false ∧
        ∃ o, (classify_images svcMild (some srcImages) none).out = some o ∧
          o.dirs = (setup_output_directory svcMild.class_labels).1.dirs ∧
          (∀ c, [c] ∈ o.dirs ↔ c ∈ svcMild.class_labels) ∧
          (∀ d ∈ o.dirs, ∃ c, c ∈ svcMild.class_labels ∧ d = [c]) ∧
          ((classify_images svcMild (some srcImages) none).outcome = Outcome.completed →
            ∀ e ∈ o.files, ∃ c, c ∈ svcMild.class_labels ∧ e.1 = [c] ∧ [c] ∈ o.dirs)) :=
  ⟨by decide, Or.inl (by decide),
    output_dirs_match_labels svcMild srcImages none (by decide) (Or.inl (by decide))⟩

theorem early_return_preserves_output_witness :
    (∀ src, (some srcNoImages : Option SourceDir) = some src → find_image_files src = []) ∧
      ((classify_images svcMild (some srcNoImages)
          (some ⟨[["Old"]], [(["Old"], "x.png", [9])]⟩)).out =
        some ⟨[["Old"]], [(["Old"], "x.png", [9])]⟩ ∧
      ((classify_images svcMild (some srcNoImages)
          (some ⟨[["Old"]], [(["Old"], "x.png", [9])]⟩)).outcome = Outcome.earlyNoSource ∨
        (classify_images svcMild (some srcNoImages)
          (some ⟨[["Old"]], [(["Old"], "x.png", [9])]⟩)).outcome = Outcome.earlyNoImages)) :=
  ⟨fun src hsrc => by
      obtain rfl : srcNoImages = src := Option.some.inj hsrc
      decide,
    early_return_preserves_output svcMild (some srcNoImages)
      (some ⟨[["Old"]], [(["Old"], "x.png", [9])]⟩)
      (fun src hsrc => by
        obtain rfl : srcNoImages = src := Option.some.inj hsrc
        decide)⟩

theorem failed_prediction_skips_file_witness :
    (svcFail.process_image ([1] : Bytes) = none ∨
      ∃ r, svcFail.process_image ([1] : Bytes) = some r ∧ r.success = false) ∧
      (predict_image_using_django_service svcFail ([1] : Bytes) = none ∧
        classifyStep svcFail (startState svcFail) ⟨[], "a.png", [1]⟩ =
          (startState svcFail, false) ∧
        runLoop svcFail (startState svcFail) [⟨[], "a.png", [1]⟩] =
          runLoop svcFail (startState svcFail) []) :=
  ⟨Or.inr ⟨⟨false, "", 0, "bad image"⟩, rfl, rfl⟩,
    failed_prediction_skips_file svcFail (startState svcFail) ⟨[], "a.png", [1]⟩ []
      (Or.inr ⟨⟨false, "", 0, "bad image"⟩, rfl, rfl⟩)⟩

theorem successful_prediction_copies_once_witness :
    svcMild.process_image ([1] : Bytes) = some predMild ∧
      predMild.success = true ∧
      simpleLabel predMild.prediction = true ∧
      [predMild.prediction] ∈ (startState svcMild).out.dirs ∧
      predMild.prediction ∈ tallyKeys (startState svcMild).results ∧
      (tallyKeys (startState svcMild).results).Nodup ∧
      (classifyStep svcMild (startState svcMild) ⟨[], "a.png", [1]⟩ =
          (⟨copyInto (startState svcMild).out [predMild.prediction] "a.png" [1],
            bumpTally (startState svcMild).results predMild.prediction,
            (startState svcMild).processed + 1⟩, false) ∧
        ([predMild.prediction], "a.png", ([1] : Bytes)) ∈
          (copyInto (startState svcMild).out [predMild.prediction] "a.png" [1]).files ∧
        (∀ e ∈ (copyInto (startState svcMild).out [predMild.prediction] "a.png" [1]).files,
          e ∈ (startState svcMild).out.files ∨
            e = ([predMild.prediction], "a.png", ([1] : Bytes))) ∧
        getTally (bumpTally (startState svcMild).results predMild.prediction)
            predMild.prediction =
          getTally (startState svcMild).results predMild.prediction + 1 ∧
        (∀ c, c ≠ predMild.prediction →
          getTally (bumpTally (startState svcMild).results predMild.prediction) c =
            getTally (startState svcMild).results c) ∧
        (copyInto (startState svcMild).out [predMild.prediction] "a.png" [1]).dirs =
          (startState svcMild).out.dirs) :=
  ⟨rfl, rfl, by decide, by decide, by decide, by decide,
    successful_prediction_copies_once svcMild (startState svcMild) ⟨[], "a.png", [1]⟩
      predMild rfl rfl (by decide) (by decide) (by decide) (by decide)⟩

/-- A filesystem with one file whose bytes are `[5]`. -/
def fsOne : FileSystem := fun _ => some [5]

/-- A preprocessing function returning one array. -/
def preA : Bytes → Option (List Rat) := fun _ => some [1]

/-- A different preprocessing function returning another array. -/
def preB : Bytes → Option (List Rat) := fun _ => some [2]

theorem checker_reuses_service_prediction_witness :
    fsOne "classified_images/Mild/x.png" = some [5] ∧
      (preA ([5] : Bytes)).isSome = true ∧
      (preB ([5] : Bytes)).isSome = true ∧
      (checkCase svcMild preA fsOne ("classified_images/Mild/x.png", "Mild") =
          checkCase svcMild preB fsOne ("classified_images/Mild/x.png", "Mild") ∧
        ∀ r, svcMild.process_image [5] = some r → r.success = true →
          predict_image_using_django_service svcMild [5] =
            some (r.prediction, r.confidence / 100) ∧
          checkCase svcMild preA fsOne ("classified_images/Mild/x.png", "Mild") =
            (if r.prediction = "Mild"
             then CaseOutcome.matched r.prediction (r.confidence / 100)
             else CaseOutcome.mismatch r.prediction (r.confidence / 100))) :=
  ⟨rfl, rfl, rfl,
    checker_reuses_service_prediction svcMild preA preB fsOne
      ("classified_images/Mild/x.png", "Mild") [5] rfl rfl rfl⟩

/-- A filesystem with one missing path and three distinct files. -/
def fsFour : FileSystem := fun s =>
  if s = "m.png" then none
  else if s = "p.png" then some [1]
  else if s = "e.png" then some [2]
  else some [3]

/-- A preprocessing function that fails exactly on bytes `[1]`. -/
def preFour : Bytes → Option (List Rat) := fun b =>
  if b = [1] then none else some [0]

/-- A service that raises on bytes `[2]`, fails on `[3]`, and succeeds
otherwise. -/
def svcFour : Service :=
  ⟨["Mild"], fun b =>
    if b = [2] then none
    else if b = [3] then some ⟨false, "", 0, "err"⟩
    else some ⟨true, "Mild", 60, ""⟩⟩

theorem checker_per_case_error_handling_witness :
    fsFour "m.png" = none ∧
      fsFour "p.png" = some [1] ∧ preFour [1] = none ∧
      fsFour "e.png" = some [2] ∧ preFour [2] = some [0] ∧
        svcFour.process_image [2] = none ∧
      fsFour "f.png" = some [3] ∧ preFour [3] = some [0] ∧
        svcFour.process_image [3] = some ⟨false, "", 0, "err"⟩ ∧
        (⟨false, "", 0, "err"⟩ : PredResult).success = false ∧
      (test_prediction_consistency svcFour preFour fsFour
          [("m.png", "Mild"), ("p.png", "Mild"), ("e.png", "Mild"), ("f.png", "Mild")] =
        [("m.png", "Mild"), ("p.png", "Mild"), ("e.png", "Mild"),
          ("f.png", "Mild")].map (checkCase svcFour preFour fsFour) ∧
      checkCase svcFour preFour fsFour ("m.png", "Mild") = CaseOutcome.notFound ∧
      (∀ s c, checkCase svcFour preFour fsFour ("m.png", "Mild") ≠ CaseOutcome.matched s c ∧
        checkCase svcFour preFour fsFour ("m.png", "Mild") ≠ CaseOutcome.mismatch s c) ∧
      checkCase svcFour preFour fsFour ("p.png", "Mild") = CaseOutcome.preprocessFailed ∧
      checkCase svcFour preFour fsFour ("e.png", "Mild") = CaseOutcome.predictionFailed ∧
      checkCase svcFour preFour fsFour ("f.png", "Mild") = CaseOutcome.predictionFailed) :=
  ⟨rfl, rfl, rfl, rfl, rfl, rfl, rfl, rfl, rfl, rfl,
    checker_per_case_error_handling svcFour preFour fsFour
      [("m.png", "Mild"), ("p.png", "Mild"), ("e.png", "Mild"), ("f.png", "Mild")]
      ("m.png", "Mild") ("p.png", "Mild") ("e.png", "Mild") ("f.png", "Mild")
      [1] [2] [3] [0] [0] ⟨false, "", 0, "err"⟩
      rfl rfl rfl rfl rfl rfl rfl rfl rfl rfl⟩

theorem confidence_in_unit_interval_witness :
    (∀ b s c, predict_image_using_django_service svcMild b = some (s, c) →
        0 ≤ c ∧ c ≤ 1) ∧
      ∀ (pre : Bytes → Option (List Rat)) (fsys : FileSystem) (tc : String × String)
        (s : String) (c : Rat),
        (checkCase svcMild pre fsys tc = CaseOutcome.matched s c ∨
          checkCase svcMild pre fsys tc = CaseOutcome.mismatch s c) →
        0 ≤ c ∧ c ≤ 1 :=
  confidence_in_unit_interval svcMild
    (fun b r h => by
      obtain rfl : predMild = r := Option.some.inj h
      exact ⟨show (0 : Rat) ≤ 87 by norm_num, show (87 : Rat) ≤ 100 by norm_num⟩)

theorem basename_collision_overwrites_witness :
    ((classify_images svcAllMild (some srcDupNames) none).outcome = Outcome.completed ∨
      (classify_images svcAllMild (some srcDupNames) none).outcome = Outcome.crashed) ∧
      (classify_images svcAllMild (some srcDupNames) none).out =
        some ⟨[["Mild"]], [(["Mild"], "a.png", [2])]⟩ ∧
      ((⟨[["Mild"]], [(["Mild"], "a.png", [2])]⟩ : OutputDir).files.map fkey).Nodup :=
  ⟨Or.inl (by decide), by decide,
    basename_collision_overwrites.1 svcAllMild srcDupNames none
      ⟨[["Mild"]], [(["Mild"], "a.png", [2])]⟩ (Or.inl (by decide)) (by decide)⟩

end Retina
